import Mathlib

/-!
# Verification of the tui_player terminal rendering engine

Shallow embedding of the core rendering / frame-buffer logic of the
`tui_player` repository (crate `core`), together with theorems settling the
frozen claims about it.

Conventions of the embedding:
* Rust `f64`/`f32` values are modelled as exact rationals (`ℚ`); the decimal
  literals of the source become the corresponding rational literals.
* Rust `u8`/`u16`/`usize` values are modelled as `ℕ`; the arithmetic used by
  the source never overflows on the value ranges the source guarantees
  (8-bit pixel channels), which is noted at each definition.
* Fallible operations return explicit results; the terminal writes performed
  by the renderer are modelled as the list of tokens pushed to the output
  string, in push order (each `output.push`/`push_str` of the source is one
  token).  Ghost column indices are attached to the character tokens so that
  statements can speak about which source column a character came from.
* Thread spawning cannot be embedded; the prefetch worker's loop body is
  embedded as a pure function over the (finite) list of results its decode
  callback produces, with the stop flag never set during the run.
-/

namespace TuiPlayer

/-! ## Pixels, images and video frames (src/core/src/video.rs)

An RGBA pixel.  In the source, channels are `u8` (values `< 256`); the
theorems below do not depend on that bound except where stated. -/
structure Pixel where
  r : ℕ
  g : ℕ
  b : ℕ
  a : ℕ
deriving DecidableEq, Repr

/-- A raw RGBA image: dimensions plus a total pixel lookup
(`image::RgbaImage::get_pixel`; the source only reads in-bounds pixels). -/
structure Image where
  width : ℕ
  height : ℕ
  pix : ℕ → ℕ → Pixel

/-- `VideoFrame` (src/core/src/video.rs): a decoded frame with timing data.
`width`/`height` are copied from the image on construction, as in
`VideoFrame::new`. -/
structure VideoFrame where
  image : Image
  timestamp : ℚ
  duration : ℚ
  width : ℕ
  height : ℕ

/-- `VideoFrame::new`. -/
def VideoFrame.new (image : Image) (timestamp duration : ℚ) : VideoFrame :=
  { image := image, timestamp := timestamp, duration := duration,
    width := image.width, height := image.height }

/-! ## FrameBuffer (src/core/src/video/frame.rs) -/

/-- Truncation of `ts * 1000.0` to `i64` (`as i64` truncates toward zero). -/
def timestampKey (ts : ℚ) : ℤ :=
  if 0 ≤ ts * 1000 then ⌊ts * 1000⌋ else ⌈ts * 1000⌉

/-- The `timestamp_map : HashMap<i64, usize>` is modelled as an association
list; `insert` replaces an existing binding for the key. -/
def mapInsert (key : ℤ) (idx : ℕ) (m : List (ℤ × ℕ)) : List (ℤ × ℕ) :=
  (key, idx) :: m.filter (fun kv => kv.1 ≠ key)

/-- `FrameBuffer` state.  The `prefetch_thread` handle and the
`stop_prefetch` flag live on the Rust side of the thread boundary and are
not part of the purely functional state; `prefetching` is kept. -/
structure FrameBuffer where
  frames : List VideoFrame
  timestampMap : List (ℤ × ℕ)
  capacity : ℕ
  prefetching : Bool
  currentPosition : ℚ

namespace FrameBuffer

/-- `FrameBuffer::new(capacity)`. -/
def new (capacity : ℕ) : FrameBuffer :=
  { frames := [], timestampMap := [], capacity := capacity,
    prefetching := false, currentPosition := 0 }

/-- `FrameBuffer::cleanup_old_frames`: drop leading frames older than
`current_position - 2.0`; rebuild the timestamp map if anything was
removed. -/
def cleanupOldFrames (fb : FrameBuffer) : FrameBuffer :=
  let cutoff := fb.currentPosition - 2
  if cutoff ≤ 0 then fb
  else
    let frames' := fb.frames.dropWhile (fun fr => decide (fr.timestamp < cutoff))
    if frames'.length = fb.frames.length then { fb with frames := frames' }
    else
      { fb with
          frames := frames',
          timestampMap :=
            (frames'.enum.map (fun fi => (timestampKey fi.2.timestamp, fi.1))) }

/-- `FrameBuffer::add_frame`: evict via `cleanup_old_frames` when at
capacity; reject if still full, else record the timestamp key and push. -/
def addFrame (fb : FrameBuffer) (frame : VideoFrame) : FrameBuffer × Bool :=
  if fb.frames.length ≥ fb.capacity then
    let fb' := cleanupOldFrames fb
    if fb'.frames.length ≥ fb'.capacity then (fb', false)
    else
      (({ fb' with
          timestampMap :=
            mapInsert (timestampKey frame.timestamp) fb'.frames.length fb'.timestampMap,
          frames := fb'.frames ++ [frame] }), true)
  else
    (({ fb with
        timestampMap :=
          mapInsert (timestampKey frame.timestamp) fb.frames.length fb.timestampMap,
        frames := fb.frames ++ [frame] }), true)

/-- `FrameBuffer::next_frame`: scan the deque in insertion order for the
first frame with `timestamp > current_position`; advance to it.  If none,
return the last frame and set the position to its timestamp. -/
def nextFrame (fb : FrameBuffer) : FrameBuffer × Option VideoFrame :=
  if fb.frames.isEmpty then (fb, none)
  else
    match fb.frames.find? (fun fr => decide (fr.timestamp > fb.currentPosition)) with
    | some fr => ({ fb with currentPosition := fr.timestamp }, some fr)
    | none =>
      match fb.frames.getLast? with
      | some lastFr => ({ fb with currentPosition := lastFr.timestamp }, some lastFr)
      | none => (fb, none)

/-- `FrameBuffer::seek`: set the position, then clean up old frames. -/
def seek (fb : FrameBuffer) (timestamp : ℚ) : FrameBuffer :=
  cleanupOldFrames { fb with currentPosition := timestamp }

/-- `FrameBuffer::clear`. -/
def clear (fb : FrameBuffer) : FrameBuffer :=
  { fb with frames := [], timestampMap := [], currentPosition := 0 }

/-- `FrameBuffer::status`. -/
def status (fb : FrameBuffer) : ℕ × ℕ × ℚ :=
  (fb.frames.length, fb.capacity, fb.currentPosition)

end FrameBuffer

/-! ### Operation sequences over a frame buffer (for the capacity invariant) -/

/-- One caller-visible mutating operation on a `FrameBuffer`. -/
inductive BufferOp where
  | add (frame : VideoFrame)
  | seekTo (timestamp : ℚ)
  | next
  | clearAll

/-- Apply one operation (dropping the returned frame / flag). -/
def applyBufferOp (fb : FrameBuffer) : BufferOp → FrameBuffer
  | .add f => (fb.addFrame f).1
  | .seekTo ts => fb.seek ts
  | .next => (fb.nextFrame).1
  | .clearAll => fb.clear

/-- Apply a sequence of operations in order. -/
def applyBufferOps (fb : FrameBuffer) (ops : List BufferOp) : FrameBuffer :=
  ops.foldl applyBufferOp fb

/-! ## The prefetch worker (FrameBuffer::start_prefetching)

The spawned thread's loop, embedded over the finite list of results the
decode callback will produce, for runs in which the stop flag is never set.
The loop counts decoded frames in the local `frames_decoded` counter and
drops the frame value; it has no access to the buffer's frame collection
(the closure captures only the stop flag and a copy of `capacity`). -/

/-- One result of `decoder_callback()`:
`Ok(Some(frame))`, `Ok(None)` or `Err(_)`. -/
inductive DecodeResult where
  | frame (f : VideoFrame)
  | eos
  | err

/-- How (or whether) the worker loop ends. -/
inductive WorkerExit where
  | stuckFull (framesDecoded : ℕ)     -- sleeps/retries forever: counter ≥ capacity
  | finished (framesDecoded : ℕ)      -- `Ok(None)`: end of stream
  | tooManyErrors (framesDecoded : ℕ) -- 5 consecutive `Err`
  | scriptEnd (framesDecoded : ℕ)     -- the modelled callback list was exhausted
deriving DecidableEq, Repr

/-- The worker loop body.  `max_decode_errors = 5`.  When
`frames_decoded >= buffer_capacity` the loop never calls the callback again
(it sleeps and re-checks forever), modelled as `stuckFull`. -/
def prefetchWorker (capacity : ℕ) : ℕ → ℕ → List DecodeResult → WorkerExit
  | framesDecoded, _, [] =>
    if framesDecoded ≥ capacity then .stuckFull framesDecoded
    else .scriptEnd framesDecoded
  | framesDecoded, consecutiveErrors, result :: rest =>
    if framesDecoded ≥ capacity then .stuckFull framesDecoded
    else
      match result with
      | .frame _ => prefetchWorker capacity (framesDecoded + 1) 0 rest
      | .eos => .finished framesDecoded
      | .err =>
        if consecutiveErrors + 1 ≥ 5 then .tooManyErrors framesDecoded
        else prefetchWorker capacity framesDecoded (consecutiveErrors + 1) rest

/-- `FrameBuffer::start_prefetching`: a no-op when already prefetching,
otherwise mark prefetching and run the worker.  The buffer state returned is
exactly the mutation `start_prefetching` performs on `self`. -/
def startPrefetching (fb : FrameBuffer) (script : List DecodeResult) :
    FrameBuffer × Option WorkerExit :=
  if fb.prefetching then (fb, none)
  else ({ fb with prefetching := true }, some (prefetchWorker fb.capacity 0 0 script))

/-! ## Protocol dispatch with sticky fallback (src/core/src/render.rs)

`TerminalRenderer::render` keeps four `static mut` cells shared by every
renderer in the process: `LAST_METHOD`, `KITTY_FAILED`, `ITERM_FAILED` and
`SIXEL_FAILED`.  We embed the method-selection and fallback logic of one
`render` call as a transition on that shared state.  The backend calls
themselves (`render_kitty`, `render_iterm`, `render_sixel`,
`render_blocks`) perform terminal I/O; each invocation's behaviour is an
input of the transition: it returns `Ok`, returns `Err`, or panics. -/

/-- `RenderMethod`. -/
inductive RMethod where
  | kitty
  | iterm
  | sixel
  | blocks
  | auto
deriving DecidableEq, Repr, Fintype

/-- The process-wide `static mut` cells of `TerminalRenderer::render`. -/
structure GlobalRenderState where
  lastMethod : Option RMethod
  kittyFailed : Bool
  itermFailed : Bool
  sixelFailed : Bool
deriving DecidableEq, Repr, Fintype

/-- The state at process start: `None`, `false`, `false`, `false`. -/
def initialGlobalState : GlobalRenderState :=
  { lastMethod := none, kittyFailed := false, itermFailed := false,
    sixelFailed := false }

/-- Behaviour of one backend invocation. -/
inductive Outcome where
  | ok
  | err
  | panic
deriving DecidableEq, Repr, Fintype

/-- Behaviour of each backend, were it invoked during this call. -/
structure CallOutcomes where
  kitty : Outcome
  iterm : Outcome
  sixel : Outcome
  blocks : Outcome
deriving DecidableEq, Repr, Fintype

/-- What one `render` call does from the caller's point of view:
returns `Ok(())`, returns `Err(_)`, or unwinds with a panic. -/
inductive CallResult where
  | ok
  | err
  | panicked
deriving DecidableEq, Repr, Fintype

/-- The `current_method` selection (render.rs:409-429): a previously failed
protocol matching this renderer's effective method forces `Blocks`;
otherwise a memoized non-`Auto` `LAST_METHOD` wins; otherwise the
renderer's effective method. -/
def currentMethod (g : GlobalRenderState) (eff : RMethod) : RMethod :=
  if g.kittyFailed ∧ eff = .kitty then .blocks
  else if g.itermFailed ∧ eff = .iterm then .blocks
  else if g.sixelFailed ∧ eff = .sixel then .blocks
  else
    match g.lastMethod with
    | some m => if m ≠ .auto then m else eff
    | none => eff

/-- The shared failure-arm of the Kitty/ITerm/Sixel matches: set the
protocol's sticky flag, memoize `Blocks`, clear the screen, and re-render
via `render_blocks` (whose own outcome becomes the call's result;
`render_blocks` is not wrapped, so a panic in it unwinds). -/
def fallbackToBlocks (g : GlobalRenderState) (setFlag : GlobalRenderState → GlobalRenderState)
    (blocksOutcome : Outcome) : CallResult × GlobalRenderState :=
  let g' := { setFlag g with lastMethod := some .blocks }
  match blocksOutcome with
  | .ok => (.ok, g')
  | .err => (.err, g')
  | .panic => (.panicked, g')

/-- One `render` call (render.rs:432-533), given the renderer's effective
method and the outcome each backend would have.  Only the Kitty arm is
wrapped in `catch_unwind`; for it a returned error and a captured panic are
handled by identical code.  The ITerm and Sixel arms match only on the
returned `Result`, so a panic there unwinds out of `render` with no state
change.  After the match, a successful result memoizes `current_method` —
the protocol arm's method, even when the frame was actually drawn by the
Blocks fallback. -/
def renderDispatch (g : GlobalRenderState) (eff : RMethod) (oc : CallOutcomes) :
    CallResult × GlobalRenderState :=
  let cm := currentMethod g eff
  let step : CallResult × GlobalRenderState :=
    match cm with
    | .kitty =>
      match oc.kitty with
      | .ok => (.ok, g)
      | .err => fallbackToBlocks g (fun s => { s with kittyFailed := true }) oc.blocks
      | .panic => fallbackToBlocks g (fun s => { s with kittyFailed := true }) oc.blocks
    | .iterm =>
      match oc.iterm with
      | .ok => (.ok, g)
      | .err => fallbackToBlocks g (fun s => { s with itermFailed := true }) oc.blocks
      | .panic => (.panicked, g)
    | .sixel =>
      match oc.sixel with
      | .ok => (.ok, g)
      | .err => fallbackToBlocks g (fun s => { s with sixelFailed := true }) oc.blocks
      | .panic => (.panicked, g)
    | .blocks =>
      match oc.blocks with
      | .ok => (.ok, g)
      | .err => (.err, g)
      | .panic => (.panicked, g)
    | .auto =>
      match oc.blocks with
      | .ok => (.ok, { g with lastMethod := some .blocks })
      | .err => (.err, { g with lastMethod := some .blocks })
      | .panic => (.panicked, g)
  match step with
  | (.ok, g') => (.ok, { g' with lastMethod := some cm })
  | other => other

/-- A sequence of `render` calls from possibly different renderers: fold the
state through `renderDispatch`. -/
def runRenderCalls (g : GlobalRenderState) (calls : List (RMethod × CallOutcomes)) :
    GlobalRenderState :=
  calls.foldl (fun s c => (renderDispatch s c.1 c.2).2) g

/-! ## Adaptive quality controller (TerminalRenderer::update_performance_metrics)

The pieces of `TerminalRenderer` state it reads and writes: the rolling
window `frame_times`, `current_quality_factor`, and
`frames_since_quality_adjust`.  The elapsed wall-clock time measured at the
top of the function is an input.  `f64` values are exact rationals. -/

structure PerfState where
  frameTimes : List ℚ
  currentQualityFactor : ℚ
  framesSinceQualityAdjust : ℕ

/-- The state set up by `TerminalRenderer::new`: empty window, factor 1.0,
counter 0. -/
def initialPerfState : PerfState :=
  { frameTimes := [], currentQualityFactor := 1, framesSinceQualityAdjust := 0 }

/-- Insertion sort on rationals, modelling the `times.sort_by(partial_cmp)`
of the source (same sorted result on a window of real numbers). -/
def insertSortedQ (x : ℚ) : List ℚ → List ℚ
  | [] => [x]
  | y :: ys => if x ≤ y then x :: y :: ys else y :: insertSortedQ x ys

/-- Sort a list of rationals ascending. -/
def sortQ : List ℚ → List ℚ
  | [] => []
  | x :: xs => insertSortedQ x (sortQ xs)

/-- The quality-adjustment ladder of `update_performance_metrics`
(render.rs:653-681): severe slowdown scales by 0.7 with floor 0.2, mild
slowdown by 0.85 with floor 0.2; ample headroom scales by 1.2 with ceiling
1.0, mild headroom by 1.07 with ceiling 1.0 (the two increases only when
the factor is below 1.0); otherwise unchanged. -/
def adjustQuality (currentFps targetFps q : ℚ) : ℚ :=
  if currentFps < targetFps * (4/10) then max (q * (7/10)) (2/10)
  else if currentFps < targetFps * (7/10) then max (q * (85/100)) (2/10)
  else if currentFps > targetFps * (17/10) ∧ q < 1 then min (q * (12/10)) 1
  else if currentFps > targetFps * (13/10) ∧ q < 1 then min (q * (107/100)) 1
  else q

/-- `update_performance_metrics` (render.rs:599-683) as a function of the
measured `frame_time`.  Literal constants (`0.001`, `0.033`, `0.4`, `0.7`,
`0.85`, `1.2`, `1.07`, `1.3`, `1.7`, `0.2`) become the corresponding
rationals.  `times[mid]` reads are in bounds whenever executed; they are
modelled with `getD _ 0`. -/
def updatePerformanceMetrics (adaptiveResolution : Bool) (targetFps : ℚ)
    (s : PerfState) (frameTime : ℚ) : PerfState :=
  let frameTimes :=
    if 1/1000 < frameTime ∧ frameTime < 1 then
      let pushed := s.frameTimes ++ [frameTime]
      if pushed.length > 15 then pushed.drop 1 else pushed
    else s.frameTimes
  let framesSince := s.framesSinceQualityAdjust + 1
  if adaptiveResolution ∧ framesSince ≥ 15 then
    let avgFrameTime :=
      if ¬ frameTimes.isEmpty then
        let times := sortQ frameTimes
        let mid := times.length / 2
        if times.length % 2 = 0 ∧ ¬ times.isEmpty then
          (times.getD (mid - 1) 0 + times.getD mid 0) / 2
        else if ¬ times.isEmpty then times.getD mid 0
        else 33/1000
      else 33/1000
    let currentFps := if 0 < avgFrameTime then 1 / avgFrameTime else 30
    { frameTimes := frameTimes,
      currentQualityFactor := adjustQuality currentFps targetFps s.currentQualityFactor,
      framesSinceQualityAdjust := 0 }
  else
    { frameTimes := frameTimes, currentQualityFactor := s.currentQualityFactor,
      framesSinceQualityAdjust := framesSince }

/-- Feed a sequence of frame-time samples through the controller. -/
def runPerfSamples (adaptiveResolution : Bool) (targetFps : ℚ)
    (samples : List ℚ) : PerfState :=
  samples.foldl (updatePerformanceMetrics adaptiveResolution targetFps) initialPerfState

/-! ## Alpha blending in the block renderer (render.rs:1201-1208)

`top_r = ((top_color[0] as u16 * top_color[3] as u16) + 127) >> 8` and its
five siblings.  For `u8` inputs `c, a ≤ 255` the `u16` product
`c*a + 127 ≤ 65152 < 2^16` never overflows, so plain `ℕ` arithmetic is
exact. -/

/-- One blended channel of the scalar block-renderer path. -/
def blendChannel (c a : ℕ) : ℕ := (c * a + 127) / 256

/-- The blended `[u16; 3]` foreground/background triple for a pixel. -/
def blendTriple (p : Pixel) : ℕ × ℕ × ℕ :=
  (blendChannel p.r p.a, blendChannel p.g p.a, blendChannel p.b p.a)

/-- Modelled from the spec: `TerminalRenderer::simd_blend_alpha` is called
by `render/tests.rs:233` but defined nowhere under `src/`.  The spec requires
any SIMD-style batched blend path to "produce identical integer results" to
the scalar path, and the test asserts equality with the scalar
`((c as u16 * a as u16) + 127) >> 8` per channel; the model therefore
computes exactly that for both pixels of the pair. -/
def simdBlendAlpha (top bot : Pixel) : (ℕ × ℕ × ℕ) × (ℕ × ℕ × ℕ) :=
  (blendTriple top, blendTriple bot)

/-- The blend formula as the spec states it (background = opaque black, so
the `bg*(255-alpha)` term contributes nothing): `(fg*alpha + bg*(255-alpha)) / 255`. -/
def specBlendChannel (c a : ℕ) : ℕ := (c * a + 0 * (255 - a)) / 255

/-- The spec-formula triple for a pixel. -/
def specBlendTriple (p : Pixel) : ℕ × ℕ × ℕ :=
  (specBlendChannel p.r p.a, specBlendChannel p.g p.a, specBlendChannel p.b p.a)

/-! ## The CPU block renderer (TerminalRenderer::render_blocks, render.rs:1092-1260)

`render_blocks` builds one output string and writes it once.  The embedding
records the pushes to that string as a token list, in push order:
* `output.push_str(&format!("\x1B[{};{}H", ...))` per row → `moveCursor`;
* the single `' '` of a fully transparent row → `rowSpace`;
* `"\x1B[0m"` inside the cell loop → `sgrReset`;
* the three colour escapes → `sgrFgBg` / `sgrFg` / `sgrBg`;
* the `' '` of a transparent pixel pair → `spaceCell x`;
* the half-block `'▀'` → `blockCell x`;
* the trailing `"\x1B[0m\x1B[u\x1B[?25h"` → `finalReset`.
The ghost column index `x` on the two character tokens records which loop
iteration pushed the character (recoverable in the real string from the
character count since the last cursor move).  The cursor save/hide and
area-clear sequences written directly to stdout before the string is built
are not part of the output string and are not modelled.  The renderer holds
no other state touched by `render_blocks` (`&self`); in particular there is
no previous-frame row-hash field anywhere in `TerminalRenderer`. -/

inductive BlockToken where
  | moveCursor (row col : ℕ)
  | rowSpace
  | sgrReset
  | sgrFgBg (fg bg : ℕ × ℕ × ℕ)
  | sgrFg (fg : ℕ × ℕ × ℕ)
  | sgrBg (bg : ℕ × ℕ × ℕ)
  | spaceCell (x : ℕ)
  | blockCell (x : ℕ)
  | finalReset
deriving DecidableEq, Repr

/-- The `[999u16; 3]` sentinel used for `last_fg_color`/`last_bg_color`. -/
def sentinelColor : ℕ × ℕ × ℕ := (999, 999, 999)

/-- The per-row full-transparency pre-check (render.rs:1140-1157): a pixel
at or below the bottom edge counts as alpha 0 here. -/
def allTransparentRow (img : Image) (visibleWidth y : ℕ) : Bool :=
  (List.range visibleWidth).all fun x =>
    let topAlpha := (img.pix x (y * 2)).a
    let bottomAlpha := if y * 2 + 1 < img.height then (img.pix x (y * 2 + 1)).a else 0
    topAlpha == 0 && bottomAlpha == 0

/-- One iteration of the inner cell loop (render.rs:1174-1241): returns the
tokens pushed for column `x` and the updated last-colour caches.  Note that
at the bottom edge the bottom pixel is `[0, 0, 0, 255]` — opaque black —
so a transparent top pixel there still produces a block character. -/
def cellStep (img : Image) (y : ℕ) (lastFg lastBg : ℕ × ℕ × ℕ) (x : ℕ) :
    List BlockToken × (ℕ × ℕ × ℕ) × (ℕ × ℕ × ℕ) :=
  let yTop := y * 2
  let yBottom := y * 2 + 1
  let topColor := img.pix x yTop
  let bottomColor := if yBottom < img.height then img.pix x yBottom else ⟨0, 0, 0, 255⟩
  if topColor.a = 0 ∧ bottomColor.a = 0 then
    if lastFg.1 ≠ 999 ∨ lastBg.1 ≠ 999 then
      ([.sgrReset, .spaceCell x], sentinelColor, sentinelColor)
    else
      ([.spaceCell x], lastFg, lastBg)
  else
    let fg := blendTriple topColor
    let bg := blendTriple bottomColor
    let fgChanged := fg.1 ≠ lastFg.1 ∨ fg.2.1 ≠ lastFg.2.1 ∨ fg.2.2 ≠ lastFg.2.2
    let bgChanged := bg.1 ≠ lastBg.1 ∨ bg.2.1 ≠ lastBg.2.1 ∨ bg.2.2 ≠ lastBg.2.2
    if fgChanged ∧ bgChanged then
      ([.sgrFgBg fg bg, .blockCell x], fg, bg)
    else if fgChanged then
      ([.sgrFg fg, .blockCell x], fg, lastBg)
    else if bgChanged then
      ([.sgrBg bg, .blockCell x], lastFg, bg)
    else
      ([.blockCell x], lastFg, lastBg)

/-- Run the cell loop over a list of columns, threading the colour caches. -/
def cellsTokens (img : Image) (y : ℕ) (lastFg lastBg : ℕ × ℕ × ℕ) :
    List ℕ → List BlockToken
  | [] => []
  | x :: xs =>
    let step := cellStep img y lastFg lastBg x
    step.1 ++ cellsTokens img y step.2.1 step.2.2 xs

/-- The columns of the chunk beginning at `chunkStart`
(`chunk_start..(chunk_start + 32).min(visible_width)`). -/
def chunkColumns (visibleWidth chunkStart : ℕ) : List ℕ :=
  List.range' chunkStart (min (chunkStart + 32) visibleWidth - chunkStart)

/-- The chunk starts `(0..visible_width).step_by(32)` (render.rs:1167). -/
def chunkStarts (visibleWidth : ℕ) : List ℕ :=
  (List.range ((visibleWidth + 31) / 32)).map (· * 32)

/-- The tokens of one output row (render.rs:1131-1243): cursor move, then a
single space for a fully transparent row, otherwise the chunked cell loop
with the colour caches re-initialised to the sentinel at each chunk. -/
def rowTokens (img : Image) (cfgX cfgY visibleWidth y : ℕ) : List BlockToken :=
  .moveCursor (cfgY + y + 1) (cfgX + 1) ::
    (if allTransparentRow img visibleWidth y then [.rowSpace]
     else (chunkStarts visibleWidth).flatMap fun cs =>
       cellsTokens img y sentinelColor sentinelColor (chunkColumns visibleWidth cs))

/-- `render_blocks` output-string content.  `visible_width`/`visible_height`
as in render.rs:1101-1103 (the `usize` subtractions do not underflow when
the configured offsets fit the terminal, the only case the source
exercises); a zero visible area returns early with an empty string. -/
def renderBlocks (cfgX cfgY termW termH : ℕ) (frame : VideoFrame) : List BlockToken :=
  let img := frame.image
  let width := img.width
  let height := img.height
  let visibleWidth := min width (termW - cfgX)
  let visibleHeight := (min height (termH * 2 - cfgY) + 1) / 2
  if visibleWidth = 0 ∨ visibleHeight = 0 then []
  else
    ((List.range visibleHeight).flatMap fun y =>
      rowTokens img cfgX cfgY visibleWidth y) ++ [.finalReset]

/-- Recognise the per-row cursor-move token. -/
def isMoveCursor : BlockToken → Bool
  | .moveCursor _ _ => true
  | _ => false

/-- Number of rows a render emits (= cursor moves: the renderer positions
the cursor once per row it writes). -/
def emittedRowCount (toks : List BlockToken) : ℕ :=
  toks.countP isMoveCursor

/-! ## Concrete fixtures used in witnesses and counterexamples -/

/-- The 10×10 all-zero test frame of `frame.rs`'s own test helper
(`create_test_frame`). -/
def testFrame (ts : ℚ) : VideoFrame :=
  VideoFrame.new ⟨10, 10, fun _ _ => ⟨0, 0, 0, 0⟩⟩ ts (1/30)

/-- A 2×2 fully opaque white frame. -/
def opaqueFrame : VideoFrame :=
  VideoFrame.new ⟨2, 2, fun _ _ => ⟨255, 255, 255, 255⟩⟩ 0 (1/25)

/-- A 2×2 frame whose column 0 is fully transparent at every row and whose
column 1 is fully opaque. -/
def transparentColumnFrame : VideoFrame :=
  VideoFrame.new
    ⟨2, 2, fun x _ => if x = 0 then ⟨0, 0, 0, 0⟩ else ⟨255, 255, 255, 255⟩⟩ 0 (1/25)

/-- The frame buffer of the repository's own `test_frame_buffer_next_frame`
test: capacity 5, frames added in the order of timestamps 2.0, 1.0, 4.0,
3.0, position 0. -/
def outOfOrderBuffer : FrameBuffer :=
  applyBufferOps (FrameBuffer.new 5)
    [.add (testFrame 2), .add (testFrame 1), .add (testFrame 4), .add (testFrame 3)]

/-- A buffer holding one frame at timestamp 1.0 with the position at 3.0
(past every buffered timestamp): the state reached from `new 5` by
`add_frame(testFrame 1)` followed by `seek(3.0)` (whose cleanup keeps the
frame, since 1.0 is not older than the cutoff 3.0 − 2.0), written out as a
literal. -/
def pastEndBuffer : FrameBuffer :=
  { frames := [testFrame 1], timestampMap := [(1000, 0)], capacity := 5,
    prefetching := false, currentPosition := 3 }

end TuiPlayer

namespace TuiPlayer

/-! # Theorems

## Helper lemmas about the frame buffer -/

/-- Cleanup only ever drops a prefix of the frame list. -/
theorem cleanup_frames_sublist (fb : FrameBuffer) :
    (FrameBuffer.cleanupOldFrames fb).frames.Sublist fb.frames := by
  unfold FrameBuffer.cleanupOldFrames
  dsimp only
  split
  · exact List.Sublist.refl _
  · split
    · exact List.dropWhile_sublist _
    · exact List.dropWhile_sublist _

/-- Cleanup never touches the capacity. -/
theorem cleanup_capacity (fb : FrameBuffer) :
    (FrameBuffer.cleanupOldFrames fb).capacity = fb.capacity := by
  unfold FrameBuffer.cleanupOldFrames
  dsimp only
  split
  · rfl
  · split <;> rfl

/-- Cleanup never changes the position. -/
theorem cleanup_position (fb : FrameBuffer) :
    (FrameBuffer.cleanupOldFrames fb).currentPosition = fb.currentPosition := by
  unfold FrameBuffer.cleanupOldFrames
  dsimp only
  split
  · rfl
  · split <;> rfl

/-- `add_frame` preserves `len ≤ capacity` and the capacity itself. -/
theorem addFrame_preserves (fb : FrameBuffer) (f : VideoFrame)
    (h : fb.frames.length ≤ fb.capacity) :
    ((fb.addFrame f).1).frames.length ≤ ((fb.addFrame f).1).capacity ∧
      ((fb.addFrame f).1).capacity = fb.capacity := by
  have hsub := (cleanup_frames_sublist fb).length_le
  have hcap := cleanup_capacity fb
  unfold FrameBuffer.addFrame
  dsimp only
  split
  · split
    · dsimp only
      exact ⟨by omega, hcap⟩
    · rename_i h2
      dsimp only
      refine ⟨?_, hcap⟩
      simp only [List.length_append, List.length_cons, List.length_nil]
      omega
  · rename_i h1
    dsimp only
    refine ⟨?_, rfl⟩
    simp only [List.length_append, List.length_cons, List.length_nil]
    omega

/-- `next_frame` leaves the frame list, the map and the capacity unchanged. -/
theorem nextFrame_state (fb : FrameBuffer) :
    ((fb.nextFrame).1).frames = fb.frames ∧ ((fb.nextFrame).1).capacity = fb.capacity := by
  unfold FrameBuffer.nextFrame
  split
  · exact ⟨rfl, rfl⟩
  · split
    · exact ⟨rfl, rfl⟩
    · split
      · exact ⟨rfl, rfl⟩
      · exact ⟨rfl, rfl⟩

/-- Every caller-visible operation preserves `len ≤ capacity` and the
capacity itself. -/
theorem applyBufferOp_preserves (fb : FrameBuffer) (op : BufferOp)
    (h : fb.frames.length ≤ fb.capacity) :
    (applyBufferOp fb op).frames.length ≤ (applyBufferOp fb op).capacity ∧
      (applyBufferOp fb op).capacity = fb.capacity := by
  cases op with
  | add f => exact addFrame_preserves fb f h
  | seekTo ts =>
    have hs := (cleanup_frames_sublist { fb with currentPosition := ts }).length_le
    have hc := cleanup_capacity { fb with currentPosition := ts }
    unfold applyBufferOp FrameBuffer.seek
    constructor
    · rw [hc]; exact le_trans hs h
    · exact hc
  | next =>
    have hn := nextFrame_state fb
    unfold applyBufferOp
    rw [hn.1, hn.2]
    exact ⟨h, rfl⟩
  | clearAll =>
    unfold applyBufferOp FrameBuffer.clear
    exact ⟨by simp, rfl⟩

/-- The invariant `len ≤ capacity = C` is preserved by any operation
sequence. -/
theorem applyBufferOps_preserves (ops : List BufferOp) : ∀ (fb : FrameBuffer),
    fb.frames.length ≤ fb.capacity →
    (applyBufferOps fb ops).frames.length ≤ (applyBufferOps fb ops).capacity ∧
      (applyBufferOps fb ops).capacity = fb.capacity := by
  induction ops with
  | nil => exact fun fb h => ⟨h, rfl⟩
  | cons op rest ih =>
    intro fb h
    have h1 := applyBufferOp_preserves fb op h
    have h2 := ih (applyBufferOp fb op) h1.1
    exact ⟨h2.1, h2.2.trans h1.2⟩

/-! ## Claim C5: frame-buffer capacity invariant -/

/-- C5: for every `FrameBuffer` created with capacity `C` and every sequence
of `add_frame` / `seek` / `next_frame` / `clear` operations, `len() ≤ C`
holds after every operation; and `add_frame` on a buffer holding `C` frames
returns `false` leaving the frame list unchanged exactly when
`cleanup_old_frames` (dropping frames older than `current_position - 2.0`)
frees no slot, and succeeds whenever cleanup frees at least one slot. -/
theorem frameBuffer_capacity_invariant (C : ℕ) (ops : List BufferOp)
    (fb : FrameBuffer) (f : VideoFrame)
    (hfull : fb.frames.length = fb.capacity) :
    (applyBufferOps (FrameBuffer.new C) ops).frames.length ≤ C ∧
    ((FrameBuffer.cleanupOldFrames fb).frames.length = fb.frames.length →
      (fb.addFrame f).2 = false ∧ (fb.addFrame f).1.frames = fb.frames) ∧
    ((FrameBuffer.cleanupOldFrames fb).frames.length < fb.frames.length →
      (fb.addFrame f).2 = true) :=
  by
  refine ⟨?_, ?_, ?_⟩
  · have h := applyBufferOps_preserves ops (FrameBuffer.new C) (by simp [FrameBuffer.new])
    have hc : (FrameBuffer.new C).capacity = C := rfl
    omega
  · intro hlen
    have heq : (FrameBuffer.cleanupOldFrames fb).frames = fb.frames :=
      (cleanup_frames_sublist fb).eq_of_length hlen
    have hcap := cleanup_capacity fb
    unfold FrameBuffer.addFrame
    dsimp only
    rw [if_pos (le_of_eq hfull.symm)]
    rw [if_pos (by omega)]
    exact ⟨rfl, heq⟩
  · intro hlt
    have hcap := cleanup_capacity fb
    unfold FrameBuffer.addFrame
    dsimp only
    rw [if_pos (le_of_eq hfull.symm)]
    rw [if_neg (by omega)]

/-- Witness for C5 at concrete inputs: two adds into a fresh buffer of
capacity 1, and an `add_frame` on a full zero-capacity buffer. -/
theorem frameBuffer_capacity_invariant_witness :
    (applyBufferOps (FrameBuffer.new 1) [.add (testFrame 0), .add (testFrame 1)]).frames.length ≤ 1 ∧
    ((FrameBuffer.cleanupOldFrames (FrameBuffer.new 0)).frames.length =
        (FrameBuffer.new 0).frames.length →
      ((FrameBuffer.new 0).addFrame (testFrame 0)).2 = false ∧
        ((FrameBuffer.new 0).addFrame (testFrame 0)).1.frames = (FrameBuffer.new 0).frames) ∧
    ((FrameBuffer.cleanupOldFrames (FrameBuffer.new 0)).frames.length <
        (FrameBuffer.new 0).frames.length →
      ((FrameBuffer.new 0).addFrame (testFrame 0)).2 = true) :=
  frameBuffer_capacity_invariant 1 [.add (testFrame 0), .add (testFrame 1)]
    (FrameBuffer.new 0) (testFrame 0) rfl

/-! ## Claim C9: next_frame scans in insertion order, not by timestamp -/

/-- C9: evaluation of the code at the repository's own test input
(`test_frame_buffer_next_frame`, frame.rs:311-328): with frames inserted at
timestamps 2.0, 1.0, 4.0, 3.0 and position 0, a frame with timestamp 1.0 —
the smallest timestamp strictly greater than the position — is buffered,
yet `next_frame()` returns the frame with timestamp 2.0 (the first in
insertion order whose timestamp exceeds the position) and advances the
position to 2.0.  The test asserts 1.0 and fails. -/
theorem nextFrame_insertion_order_bug :
    outOfOrderBuffer.currentPosition = 0 ∧
    (∃ fr ∈ outOfOrderBuffer.frames, fr.timestamp = 1) ∧
    ((outOfOrderBuffer.nextFrame).2.map VideoFrame.timestamp = some 2 ∧
      (outOfOrderBuffer.nextFrame).1.currentPosition = 2) ∧
    (2 : ℚ) ≠ 1 := by
  exact ⟨by decide, by decide, ⟨by decide, by decide⟩, by decide⟩

/-! ## Claim C10: next_frame past the last buffered timestamp -/

/-- C10: on a non-empty buffer in which every buffered timestamp is at most
`current_position`, `next_frame()` returns the last buffered frame and sets
`current_position` to its timestamp; on the concrete `pastEndBuffer` the
position strictly decreases across the call. -/
theorem nextFrame_at_end (fb : FrameBuffer) (hne : fb.frames ≠ [])
    (hall : ∀ fr ∈ fb.frames, fr.timestamp ≤ fb.currentPosition) :
    (∃ lastFr, fb.frames.getLast? = some lastFr ∧
      (fb.nextFrame).2 = some lastFr ∧
      (fb.nextFrame).1.currentPosition = lastFr.timestamp) ∧
    (pastEndBuffer.nextFrame).1.currentPosition < pastEndBuffer.currentPosition := by
  constructor
  · have hfind : fb.frames.find?
        (fun fr => decide (fr.timestamp > fb.currentPosition)) = none := by
      rw [List.find?_eq_none]
      intro fr hfr
      simpa using not_lt.mpr (hall fr hfr)
    obtain ⟨lastFr, hlast⟩ := Option.isSome_iff_exists.mp
      (List.getLast?_isSome.mpr hne)
    refine ⟨lastFr, hlast, ?_, ?_⟩ <;>
      · unfold FrameBuffer.nextFrame
        rw [if_neg (by simpa [List.isEmpty_iff] using hne), hfind, hlast]
  · decide

/-- Witness for C10 at the concrete `pastEndBuffer` (one frame at
timestamp 1.0, position 2.5). -/
theorem nextFrame_at_end_witness :
    (∃ lastFr, pastEndBuffer.frames.getLast? = some lastFr ∧
      (pastEndBuffer.nextFrame).2 = some lastFr ∧
      (pastEndBuffer.nextFrame).1.currentPosition = lastFr.timestamp) ∧
    (pastEndBuffer.nextFrame).1.currentPosition < pastEndBuffer.currentPosition :=
  nextFrame_at_end pastEndBuffer
    (List.length_pos.mp (by decide)) (by decide)

/-! ## Claim C1: the prefetch worker never inserts into the buffer -/

/-- C1: evaluation of the code against the claim.  `start_prefetching`
leaves the buffer's frame collection untouched for every callback script —
the spawned worker only increments its local `frames_decoded` counter and
drops each decoded frame (its closure captures no reference to the frame
collection).  At the failing input (a callback yielding one frame and then
end-of-stream, buffer capacity 5) the worker terminates normally having
"decoded" one frame while the buffer remains empty. -/
theorem prefetch_worker_never_inserts :
    (∀ (fb : FrameBuffer) (script : List DecodeResult),
        ((startPrefetching fb script).1).frames = fb.frames) ∧
    (startPrefetching (FrameBuffer.new 5) [.frame (testFrame 0), .eos]).1.frames = [] ∧
    (startPrefetching (FrameBuffer.new 5) [.frame (testFrame 0), .eos]).2 =
      some (.finished 1) := by
  refine ⟨?_, rfl, by decide⟩
  intro fb script
  unfold startPrefetching
  split <;> rfl

/-! ## Helper lemmas about the dispatcher's sticky state -/

set_option maxRecDepth 100000 in
/-- One `render` call never clears a sticky failure flag. -/
theorem renderDispatch_flags_mono :
    ∀ (g : GlobalRenderState) (eff : RMethod) (oc : CallOutcomes),
      (g.kittyFailed = true → (renderDispatch g eff oc).2.kittyFailed = true) ∧
      (g.itermFailed = true → (renderDispatch g eff oc).2.itermFailed = true) ∧
      (g.sixelFailed = true → (renderDispatch g eff oc).2.sixelFailed = true) := by
  decide

/-- A set sticky flag forces `Blocks` for a renderer whose effective method
is the failed protocol. -/
theorem currentMethod_of_failed :
    ∀ g : GlobalRenderState,
      (g.kittyFailed = true → currentMethod g .kitty = .blocks) ∧
      (g.itermFailed = true → currentMethod g .iterm = .blocks) ∧
      (g.sixelFailed = true → currentMethod g .sixel = .blocks) := by
  decide

/-- Sticky flags persist across any sequence of calls. -/
theorem runRenderCalls_flags_mono (calls : List (RMethod × CallOutcomes)) :
    ∀ g : GlobalRenderState,
      (g.kittyFailed = true → (runRenderCalls g calls).kittyFailed = true) ∧
      (g.itermFailed = true → (runRenderCalls g calls).itermFailed = true) ∧
      (g.sixelFailed = true → (runRenderCalls g calls).sixelFailed = true) := by
  induction calls with
  | nil => exact fun g => ⟨id, id, id⟩
  | cons c cs ih =>
    intro g
    have h1 := renderDispatch_flags_mono g c.1 c.2
    have h2 := ih (renderDispatch g c.1 c.2).2
    exact ⟨fun h => h2.1 (h1.1 h), fun h => h2.2.1 (h1.2.1 h),
      fun h => h2.2.2 (h1.2.2 h)⟩

/-! ## Claim C2: sticky protocol degradation -/

/-- C2 (counterexample): after the very first call fails in the Kitty arm
(with the Blocks fallback succeeding), the success path stores
`current_method` — which is `Kitty` — into `LAST_METHOD`, so the shared
state becomes `{lastMethod := Kitty, kittyFailed := true}`; a subsequent
call from a renderer whose effective method is `ITerm` then selects the
Kitty backend again instead of Blocks, re-attempting the failed
protocol. -/
theorem sticky_fallback_counterexample :
    (renderDispatch initialGlobalState .kitty ⟨.err, .ok, .ok, .ok⟩).2 =
      ⟨some .kitty, true, false, false⟩ ∧
    currentMethod (renderDispatch initialGlobalState .kitty ⟨.err, .ok, .ok, .ok⟩).2
      .iterm = .kitty ∧
    RMethod.kitty ≠ RMethod.blocks := by
  decide

/-- C2 (amended): once a protocol's sticky failure flag is set it is never
cleared by any later sequence of render calls, and every subsequent call
whose renderer's effective method is that protocol selects the Blocks
fallback instead of re-attempting it.  (Calls from renderers with a
*different* effective method may still re-attempt the failed protocol via
the shared last-method memo — the counterexample above.) -/
theorem sticky_fallback_per_effective_method (g : GlobalRenderState)
    (calls : List (RMethod × CallOutcomes)) :
    (g.kittyFailed = true →
      (runRenderCalls g calls).kittyFailed = true ∧
      currentMethod (runRenderCalls g calls) .kitty = .blocks) ∧
    (g.itermFailed = true →
      (runRenderCalls g calls).itermFailed = true ∧
      currentMethod (runRenderCalls g calls) .iterm = .blocks) ∧
    (g.sixelFailed = true →
      (runRenderCalls g calls).sixelFailed = true ∧
      currentMethod (runRenderCalls g calls) .sixel = .blocks) := by
  have hmono := runRenderCalls_flags_mono calls g
  have hcm := currentMethod_of_failed (runRenderCalls g calls)
  exact ⟨fun h => ⟨hmono.1 h, hcm.1 (hmono.1 h)⟩,
    fun h => ⟨hmono.2.1 h, hcm.2.1 (hmono.2.1 h)⟩,
    fun h => ⟨hmono.2.2 h, hcm.2.2 (hmono.2.2 h)⟩⟩

/-- Witness for C2 (amended) at a concrete state with all three sticky
flags set and one subsequent ITerm-effective call. -/
theorem sticky_fallback_per_effective_method_witness :
    ((runRenderCalls ⟨none, true, true, true⟩
        [(.iterm, ⟨.ok, .ok, .ok, .ok⟩)]).kittyFailed = true ∧
      currentMethod (runRenderCalls ⟨none, true, true, true⟩
        [(.iterm, ⟨.ok, .ok, .ok, .ok⟩)]) .kitty = .blocks) ∧
    ((runRenderCalls ⟨none, true, true, true⟩
        [(.iterm, ⟨.ok, .ok, .ok, .ok⟩)]).itermFailed = true ∧
      currentMethod (runRenderCalls ⟨none, true, true, true⟩
        [(.iterm, ⟨.ok, .ok, .ok, .ok⟩)]) .iterm = .blocks) ∧
    ((runRenderCalls ⟨none, true, true, true⟩
        [(.iterm, ⟨.ok, .ok, .ok, .ok⟩)]).sixelFailed = true ∧
      currentMethod (runRenderCalls ⟨none, true, true, true⟩
        [(.iterm, ⟨.ok, .ok, .ok, .ok⟩)]) .sixel = .blocks) := by
  have h := sticky_fallback_per_effective_method ⟨none, true, true, true⟩
    [(.iterm, ⟨.ok, .ok, .ok, .ok⟩)]
  exact ⟨h.1 rfl, h.2.1 rfl, h.2.2 rfl⟩

/-! ## Claim C3: panic containment -/

/-- C3 (counterexample): a panic raised by the ITerm backend propagates out
of `render` to the caller — the ITerm arm matches only on the returned
`Result` and is not wrapped in `catch_unwind` — and, unlike the error
path, it changes no shared state (no sticky flag, no fallback render). -/
theorem panic_containment_counterexample :
    (renderDispatch initialGlobalState .iterm ⟨.ok, .panic, .ok, .ok⟩).1 =
      .panicked ∧
    (renderDispatch initialGlobalState .iterm ⟨.ok, .panic, .ok, .ok⟩).2 =
      initialGlobalState := by
  decide

set_option maxRecDepth 400000 in
/-- C3 (amended): only the Kitty backend call is wrapped in
`catch_unwind`; for it a captured panic and a returned error are handled
identically (same result, same state).  A panic in the ITerm or Sixel
backend propagates to the caller, leaving the shared state unchanged. -/
theorem panic_containment_kitty_only :
    ∀ (g : GlobalRenderState) (oc : CallOutcomes) (eff : RMethod),
      (currentMethod g eff = .kitty →
        renderDispatch g eff { oc with kitty := .err } =
          renderDispatch g eff { oc with kitty := .panic }) ∧
      (currentMethod g eff = .iterm →
        (renderDispatch g eff { oc with iterm := .panic }).1 = .panicked ∧
        (renderDispatch g eff { oc with iterm := .panic }).2 = g) ∧
      (currentMethod g eff = .sixel →
        (renderDispatch g eff { oc with sixel := .panic }).1 = .panicked ∧
        (renderDispatch g eff { oc with sixel := .panic }).2 = g) := by
  decide

/-- Witness for C3 (amended): each arm's hypothesis discharged at a
concrete state whose `currentMethod` is the respective protocol. -/
theorem panic_containment_kitty_only_witness :
    (renderDispatch initialGlobalState .kitty ⟨.err, .ok, .ok, .ok⟩ =
      renderDispatch initialGlobalState .kitty ⟨.panic, .ok, .ok, .ok⟩) ∧
    ((renderDispatch initialGlobalState .iterm ⟨.ok, .panic, .ok, .err⟩).1 =
        .panicked ∧
      (renderDispatch initialGlobalState .iterm ⟨.ok, .panic, .ok, .err⟩).2 =
        initialGlobalState) ∧
    ((renderDispatch initialGlobalState .sixel ⟨.ok, .ok, .panic, .err⟩).1 =
        .panicked ∧
      (renderDispatch initialGlobalState .sixel ⟨.ok, .ok, .panic, .err⟩).2 =
        initialGlobalState) :=
  ⟨(panic_containment_kitty_only initialGlobalState ⟨.ok, .ok, .ok, .ok⟩ .kitty).1 rfl,
    (panic_containment_kitty_only initialGlobalState ⟨.ok, .panic, .ok, .err⟩ .iterm).2.1 rfl,
    (panic_containment_kitty_only initialGlobalState ⟨.ok, .ok, .panic, .err⟩ .sixel).2.2 rfl⟩

/-! ## Claim C4: quality factor bounds -/

/-- The adjustment ladder keeps the factor inside `[0.2, 1.0]`. -/
theorem adjustQuality_bounds (currentFps targetFps q : ℚ)
    (h1 : 2/10 ≤ q) (h2 : q ≤ 1) :
    2/10 ≤ adjustQuality currentFps targetFps q ∧
      adjustQuality currentFps targetFps q ≤ 1 := by
  unfold adjustQuality
  split_ifs <;>
    constructor <;>
    first
      | exact h1
      | exact h2
      | exact le_max_right _ _
      | exact min_le_right _ _
      | exact max_le (by nlinarith) (by norm_num)
      | exact le_min (by nlinarith) (by norm_num)

/-- One update keeps the quality factor inside `[0.2, 1.0]`: every branch
either leaves it unchanged, multiplies down with a `max 0.2` floor, or
multiplies up with a `min 1.0` ceiling. -/
theorem updatePerformanceMetrics_q_bounds (adaptiveResolution : Bool)
    (targetFps : ℚ) (s : PerfState) (frameTime : ℚ)
    (h1 : 2/10 ≤ s.currentQualityFactor) (h2 : s.currentQualityFactor ≤ 1) :
    2/10 ≤ (updatePerformanceMetrics adaptiveResolution targetFps s
        frameTime).currentQualityFactor ∧
      (updatePerformanceMetrics adaptiveResolution targetFps s
        frameTime).currentQualityFactor ≤ 1 := by
  unfold updatePerformanceMetrics
  dsimp only
  by_cases hA : (adaptiveResolution = true ∧ s.framesSinceQualityAdjust + 1 ≥ 15)
  · rw [if_pos hA]
    exact adjustQuality_bounds _ _ _ h1 h2
  · rw [if_neg hA]
    exact ⟨h1, h2⟩

/-- The bound holds after any run of samples from a state inside the
interval. -/
theorem runPerf_aux (adaptiveResolution : Bool) (targetFps : ℚ)
    (samples : List ℚ) : ∀ s : PerfState,
    2/10 ≤ s.currentQualityFactor → s.currentQualityFactor ≤ 1 →
    2/10 ≤ (samples.foldl (updatePerformanceMetrics adaptiveResolution targetFps)
        s).currentQualityFactor ∧
      (samples.foldl (updatePerformanceMetrics adaptiveResolution targetFps)
        s).currentQualityFactor ≤ 1 := by
  induction samples with
  | nil => exact fun s h1 h2 => ⟨h1, h2⟩
  | cons t ts ih =>
    intro s h1 h2
    have hstep := updatePerformanceMetrics_q_bounds adaptiveResolution targetFps s t h1 h2
    exact ih _ hstep.1 hstep.2

/-- C4: for every sequence of frame-time samples fed to the adaptive
quality controller, starting from the initial quality factor 1.0 of
`TerminalRenderer::new`, the quality factor stays within `[0.2, 1.0]`
after every update (every prefix of samples is itself such a sequence). -/
theorem quality_factor_bounds (adaptiveResolution : Bool) (targetFps : ℚ)
    (samples : List ℚ) :
    2/10 ≤ (runPerfSamples adaptiveResolution targetFps
        samples).currentQualityFactor ∧
      (runPerfSamples adaptiveResolution targetFps
        samples).currentQualityFactor ≤ 1 :=
  runPerf_aux adaptiveResolution targetFps samples initialPerfState
    (by norm_num [initialPerfState]) (by norm_num [initialPerfState])

/-! ## Claim C8: alpha-blend formula and scalar/SIMD agreement -/

/-- C8 (counterexample): the block renderer's blend divides by 256 (a right
shift by 8 with bias 127), not by 255 as the claim's formula states.  At a
fully opaque white pixel the code computes 254 per channel while
`(fg*alpha + bg*(255-alpha)) / 255` gives 255. -/
theorem blend_formula_counterexample :
    blendTriple ⟨255, 255, 255, 255⟩ = (254, 254, 254) ∧
    specBlendTriple ⟨255, 255, 255, 255⟩ = (255, 255, 255) ∧
    (254 : ℕ) ≠ 255 := by
  decide

/-- C8 (amended): each blended channel equals `(c*alpha + 127) >> 8` (on the
opaque-black background the `bg` term of the spec formula contributes
nothing); for 8-bit inputs this differs from the spec's `/255` by at most
one.  The spec-modelled SIMD path produces integer results identical to the
scalar path on every pixel pair, and at the spec's example input
`top=[100,150,200,128]`, `bot=[50,80,120,255]` both paths — and the spec
formula itself — yield the foreground triple `[50,75,100]` (background
`[50,80,120]`). -/
theorem blend_scalar_simd_agreement (top bot : Pixel) (c a : ℕ)
    (hc : c ≤ 255) (ha : a ≤ 255) :
    simdBlendAlpha top bot = (blendTriple top, blendTriple bot) ∧
    blendChannel c a ≤ specBlendChannel c a + 1 ∧
    specBlendChannel c a ≤ blendChannel c a + 1 ∧
    simdBlendAlpha ⟨100, 150, 200, 128⟩ ⟨50, 80, 120, 255⟩ =
      ((50, 75, 100), (50, 80, 120)) ∧
    blendTriple ⟨100, 150, 200, 128⟩ = (50, 75, 100) ∧
    specBlendTriple ⟨100, 150, 200, 128⟩ = (50, 75, 100) := by
  refine ⟨rfl, ?_, ?_, by decide, by decide, by decide⟩ <;>
    · unfold blendChannel specBlendChannel
      have hx : c * a ≤ 65025 := Nat.mul_le_mul hc ha
      omega

/-- Witness for C8 (amended) at `c = 255`, `a = 255` (the channel where the
two divisions differ by exactly one). -/
theorem blend_scalar_simd_agreement_witness :
    simdBlendAlpha ⟨255, 255, 255, 255⟩ ⟨0, 0, 0, 0⟩ =
      (blendTriple ⟨255, 255, 255, 255⟩, blendTriple ⟨0, 0, 0, 0⟩) ∧
    blendChannel 255 255 ≤ specBlendChannel 255 255 + 1 ∧
    specBlendChannel 255 255 ≤ blendChannel 255 255 + 1 ∧
    simdBlendAlpha ⟨100, 150, 200, 128⟩ ⟨50, 80, 120, 255⟩ =
      ((50, 75, 100), (50, 80, 120)) ∧
    blendTriple ⟨100, 150, 200, 128⟩ = (50, 75, 100) ∧
    specBlendTriple ⟨100, 150, 200, 128⟩ = (50, 75, 100) :=
  blend_scalar_simd_agreement ⟨255, 255, 255, 255⟩ ⟨0, 0, 0, 0⟩ 255 255
    (by decide) (by decide)

/-! ## Helper lemmas about the block renderer's token stream -/

/-- A cell emits colour escapes and one character, never a cursor move. -/
theorem cellStep_countP_move (img : Image) (y : ℕ) (lF lB : ℕ × ℕ × ℕ) (x : ℕ) :
    ((cellStep img y lF lB x).1).countP isMoveCursor = 0 := by
  unfold cellStep
  dsimp only
  split_ifs <;> rfl

/-- The cell loop emits no cursor move. -/
theorem cellsTokens_countP_move (img : Image) (y : ℕ) : ∀ (cols : List ℕ)
    (lF lB : ℕ × ℕ × ℕ), (cellsTokens img y lF lB cols).countP isMoveCursor = 0 := by
  intro cols
  induction cols with
  | nil => intro lF lB; rfl
  | cons c cs ih =>
    intro lF lB
    unfold cellsTokens
    dsimp only
    rw [List.countP_append, cellStep_countP_move, ih]

/-- The whole chunked composition of a row emits no cursor move. -/
theorem chunks_countP_move (img : Image) (y vw : ℕ) : ∀ l : List ℕ,
    ((l.flatMap fun cs =>
        cellsTokens img y sentinelColor sentinelColor (chunkColumns vw cs)).countP
      isMoveCursor) = 0 := by
  intro l
  induction l with
  | nil => rfl
  | cons c cs ih =>
    rw [List.flatMap_cons, List.countP_append, cellsTokens_countP_move, ih]

/-- Each row's token list contains exactly one cursor move. -/
theorem rowTokens_countP_move (img : Image) (cfgX cfgY vw y : ℕ) :
    (rowTokens img cfgX cfgY vw y).countP isMoveCursor = 1 := by
  unfold rowTokens
  rw [List.countP_cons]
  split
  · rfl
  · rw [chunks_countP_move]
    rfl

/-- The flattened rows contain one cursor move per row index. -/
theorem flat_rows_countP_move (img : Image) (cfgX cfgY vw : ℕ) :
    ∀ l : List ℕ,
      ((l.flatMap fun y => rowTokens img cfgX cfgY vw y).countP isMoveCursor)
        = l.length := by
  intro l
  induction l with
  | nil => rfl
  | cons a as ih =>
    rw [List.flatMap_cons, List.countP_append, rowTokens_countP_move, ih,
      List.length_cons, Nat.add_comm]

/-! ## Claim C6: no dirty-row diffing — every visible row is re-emitted -/

/-- C6 (counterexample): `render_blocks` is a pure function of its
arguments — `TerminalRenderer` holds no previous-frame row-hash state
(`render_blocks` takes `&self`) — so rendering the identical 2×2 opaque
frame a second consecutive time produces the identical output and re-emits
its one visible row, not zero rows. -/
theorem dirty_row_counterexample :
    emittedRowCount (renderBlocks 0 0 80 24 opaqueFrame) = 1 ∧ (1 : ℕ) ≠ 0 := by
  decide

/-- C6 (amended): the block renderer keeps no per-row hash vector and skips
nothing across calls: every render — in particular the second of two
consecutive renders of bit-identical frames, whose output is the same token
list — moves the cursor to and re-emits every one of the `visible_height`
rows (zero only when the visible area is empty). -/
theorem renderBlocks_reemits_every_row (cfgX cfgY termW termH : ℕ)
    (frame : VideoFrame) :
    emittedRowCount (renderBlocks cfgX cfgY termW termH frame) =
      if min frame.image.width (termW - cfgX) = 0 ∨
          (min frame.image.height (termH * 2 - cfgY) + 1) / 2 = 0 then 0
      else (min frame.image.height (termH * 2 - cfgY) + 1) / 2 := by
  unfold renderBlocks emittedRowCount
  dsimp only
  split
  · rfl
  · rw [List.countP_append, flat_rows_countP_move, List.length_range]
    rfl

/-! ## Claim C7: transparent columns are not excluded — they emit spaces -/

/-- A fully transparent pixel pair makes the cell loop emit the space
character for that column (after an SGR reset when colours were active). -/
theorem cellStep_transparent_space (img : Image) (y : ℕ) (lF lB : ℕ × ℕ × ℕ)
    (x : ℕ) (htop : (img.pix x (y * 2)).a = 0)
    (hbot : (if y * 2 + 1 < img.height then img.pix x (y * 2 + 1)
        else ⟨0, 0, 0, 255⟩).a = 0) :
    BlockToken.spaceCell x ∈ (cellStep img y lF lB x).1 := by
  unfold cellStep
  dsimp only
  rw [if_pos ⟨htop, hbot⟩]
  split <;> simp

/-- The space for a transparent cell appears in the cell loop's output for
any list of columns containing it, whatever the colour-cache state. -/
theorem mem_cellsTokens_transparent (img : Image) (y x : ℕ)
    (htop : (img.pix x (y * 2)).a = 0)
    (hbot : (if y * 2 + 1 < img.height then img.pix x (y * 2 + 1)
        else ⟨0, 0, 0, 255⟩).a = 0) :
    ∀ (cols : List ℕ) (lF lB : ℕ × ℕ × ℕ), x ∈ cols →
      BlockToken.spaceCell x ∈ cellsTokens img y lF lB cols := by
  intro cols
  induction cols with
  | nil => intro lF lB hx; simp at hx
  | cons c cs ih =>
    intro lF lB hx
    unfold cellsTokens
    dsimp only
    rcases List.mem_cons.mp hx with rfl | hx'
    · exact List.mem_append_left _ (cellStep_transparent_space img y lF lB x htop hbot)
    · exact List.mem_append_right _ (ih _ _ hx')

/-- Every visible column lies in the chunk starting at `x / 32 * 32`. -/
theorem mem_chunk (vw x : ℕ) (hx : x < vw) :
    (x / 32 * 32) ∈ chunkStarts vw ∧ x ∈ chunkColumns vw (x / 32 * 32) := by
  constructor
  · unfold chunkStarts
    exact List.mem_map.mpr ⟨x / 32, List.mem_range.mpr (by omega), rfl⟩
  · unfold chunkColumns
    rw [List.mem_range'_1]
    omega

/-- In a row that is not fully transparent, the transparent cell's space
reaches the row's token list. -/
theorem mem_rowTokens_transparent (img : Image) (cfgX cfgY vw x y : ℕ)
    (hx : x < vw) (hrow : allTransparentRow img vw y = false)
    (htop : (img.pix x (y * 2)).a = 0)
    (hbot : (if y * 2 + 1 < img.height then img.pix x (y * 2 + 1)
        else ⟨0, 0, 0, 255⟩).a = 0) :
    BlockToken.spaceCell x ∈ rowTokens img cfgX cfgY vw y := by
  unfold rowTokens
  apply List.mem_cons_of_mem
  rw [hrow]
  simp only [Bool.false_eq_true, if_false]
  exact List.mem_flatMap.mpr
    ⟨x / 32 * 32, (mem_chunk vw x hx).1,
      mem_cellsTokens_transparent img y x htop hbot _ _ _ (mem_chunk vw x hx).2⟩

/-- C7 (counterexample): in the 2×2 frame whose column 0 has alpha 0 at
every row while column 1 is opaque, column 0 is visited during row
composition and a space character is emitted for it — the fully
transparent column is not excluded from the block output, and no
per-column transparency precomputation exists in `render_blocks` (only the
per-row pre-check and the per-pixel-pair skip). -/
theorem transparent_column_counterexample :
    (∀ yy, yy < 2 → (transparentColumnFrame.image.pix 0 yy).a = 0) ∧
    BlockToken.spaceCell 0 ∈ renderBlocks 0 0 80 24 transparentColumnFrame := by
  exact ⟨by decide, by decide⟩

/-- C7 (amended): a column whose pixel pair is fully transparent at a row
is still visited during that row's composition and emits one space
character, whenever the row itself is not fully transparent (only fully
transparent rows short-circuit, emitting a single space for the whole
row).  At the bottom edge an odd final row substitutes opaque black for
the missing bottom pixel, so the skip condition is the source's pair
condition, not mere column transparency. -/
theorem transparent_cell_emits_space (cfgX cfgY termW termH : ℕ)
    (frame : VideoFrame) (x y : ℕ)
    (hx : x < min frame.image.width (termW - cfgX))
    (hy : y < (min frame.image.height (termH * 2 - cfgY) + 1) / 2)
    (hrow : allTransparentRow frame.image
        (min frame.image.width (termW - cfgX)) y = false)
    (htop : (frame.image.pix x (y * 2)).a = 0)
    (hbot : (if y * 2 + 1 < frame.image.height then frame.image.pix x (y * 2 + 1)
        else ⟨0, 0, 0, 255⟩).a = 0) :
    BlockToken.spaceCell x ∈ renderBlocks cfgX cfgY termW termH frame := by
  unfold renderBlocks
  dsimp only
  rw [if_neg (by omega)]
  apply List.mem_append_left
  exact List.mem_flatMap.mpr
    ⟨y, List.mem_range.mpr hy,
      mem_rowTokens_transparent frame.image cfgX cfgY _ x y hx hrow htop hbot⟩

/-- Witness for C7 (amended) at the concrete transparent-column frame,
column 0, row 0. -/
theorem transparent_cell_emits_space_witness :
    BlockToken.spaceCell 0 ∈ renderBlocks 0 0 80 24 transparentColumnFrame :=
  transparent_cell_emits_space 0 0 80 24 transparentColumnFrame 0 0
    (by decide) (by decide) (by decide) (by decide) (by decide)

end TuiPlayer
